import Mathlib

/-!
Shallow embedding of the numeric core of the Diffusion_Coefficients_Plot_calculate
repository: the MSD→diffusion-coefficient pipeline (`模拟结果处理代码`: `data_reader.py`,
`diffusion_calculator.py`, `process_data.py`, `plot_diffusion.py`) and the
pressure→parameter pipeline (`V参数调整处理代码/main.py`).  Python floats are
modelled as exact rationals; Python strings are manipulated through their
character lists; the natural logarithm and exponential of the Arrhenius stage
are modelled by `Real.log` / `Real.exp`.
-/

namespace DiffRepo

attribute [local semireducible] Rat.mul Rat.inv Rat.add Rat.sub

/-- Decidable equality for exception-carrying results, so that concrete runs
of the embedded functions can be checked by `decide`. -/
instance [DecidableEq ε] [DecidableEq α] : DecidableEq (Except ε α) := fun x y =>
  match x, y with
  | .error a, .error b =>
    if h : a = b then .isTrue (h ▸ rfl) else .isFalse (fun hh => h (Except.error.inj hh))
  | .ok a, .ok b =>
    if h : a = b then .isTrue (h ▸ rfl) else .isFalse (fun hh => h (Except.ok.inj hh))
  | .error _, .ok _ => .isFalse (fun hh => Except.noConfusion hh)
  | .ok _, .error _ => .isFalse (fun hh => Except.noConfusion hh)

/-- Python `int(q)` for a float `q`: truncation toward zero. -/
def pyInt (q : ℚ) : ℤ := if 0 ≤ q then ⌊q⌋ else ⌈q⌉

/-- Python list slicing `l[a:b]` (step 1), with negative indices counting from
the end and out-of-range indices clamped. -/
def pySlice (l : List α) (a b : ℤ) : List α :=
  let n : ℤ := l.length
  let a2 : ℤ := if a < 0 then max 0 (n + a) else min n a
  let b2 : ℤ := if b < 0 then max 0 (n + b) else min n b
  (l.take b2.toNat).drop a2.toNat

/-- Python `dict` assignment `d[k] = v`: replaces the value in place if the key
exists, otherwise appends the new binding (insertion order preserved). -/
def pyDictInsert [DecidableEq κ] (k : κ) (v : α) (d : List (κ × α)) : List (κ × α) :=
  if d.any (fun p => p.1 = k) then d.map (fun p => if p.1 = k then (k, v) else p)
  else d ++ [(k, v)]

/-- Python `pat in s` substring test. -/
def strContains (s pat : String) : Bool := decide (pat.toList <:+: s.toList)

/-- Python `line.startswith('#')`. -/
def startsWithHash (s : String) : Bool :=
  match s.toList with
  | '#' :: _ => true
  | _ => false

/-- Substring test on character lists (`pat in s` after per-character maps). -/
def listContains (s pat : List Char) : Bool := decide (pat <:+: s)

/-- Python `str.lower()` on a character list (ASCII case folding). -/
def lowerList (cs : List Char) : List Char := cs.map Char.toLower

/-- Python `str.strip()` on a character list: drop whitespace at both ends. -/
def trimList (cs : List Char) : List Char :=
  ((cs.dropWhile Char.isWhitespace).reverse.dropWhile Char.isWhitespace).reverse

/-- Worker for whitespace splitting: `acc` holds the current token reversed. -/
def splitWsGo : List Char → List Char → List (List Char)
  | [], acc => if acc = [] then [] else [acc.reverse]
  | c :: rest, acc =>
    if c.isWhitespace then
      if acc = [] then splitWsGo rest [] else acc.reverse :: splitWsGo rest []
    else splitWsGo rest (c :: acc)

/-- Python `str.split()` with no argument: split on whitespace runs, dropping
empty fields. -/
def pySplitWs (s : String) : List (List Char) := splitWsGo s.toList []

/-- Worker for separator splitting: `acc` holds the current field reversed. -/
def splitSepGo (sep : Char) : List Char → List Char → List (List Char)
  | [], acc => [acc.reverse]
  | c :: rest, acc =>
    if c = sep then acc.reverse :: splitSepGo sep rest []
    else splitSepGo sep rest (c :: acc)

/-- Python `s.split(sep)` for a one-character separator (empty fields kept,
the empty string yielding `[""]`). -/
def pySplitSep (sep : Char) (s : String) : List (List Char) :=
  splitSepGo sep s.toList []

/-- Value of a run of decimal digit characters. -/
def digitsVal (cs : List Char) : ℕ := cs.foldl (fun a c => 10 * a + (c.toNat - 48)) 0

/-- Split a character list at the first `e`/`E` (exponent marker of a float
literal); returns the part before it and, when present, the part after it. -/
def splitExp : List Char → List Char × Option (List Char)
  | [] => ([], none)
  | c :: rest =>
    if c = 'e' ∨ c = 'E' then ([], some rest)
    else
      let r := splitExp rest
      (c :: r.1, r.2)

/-- Mantissa of a decimal literal: `digits`, `digits.digits`, `digits.` or
`.digits` (at least one digit overall); `d₁.d₂` denotes `d₁ + d₂/10^|d₂|`. -/
def parseMantissa (cs : List Char) : Option ℚ :=
  let ip := cs.takeWhile Char.isDigit
  let rest := cs.dropWhile Char.isDigit
  match rest with
  | [] => if ip.isEmpty then none else some (digitsVal ip : ℚ)
  | '.' :: fp =>
    if fp.all Char.isDigit ∧ (ip ≠ [] ∨ fp ≠ []) then
      some (mkRat (digitsVal ip * 10 ^ fp.length + digitsVal fp) (10 ^ fp.length))
    else none
  | _ => none

/-- Signed integer exponent of a float literal. -/
def parseExpInt (cs : List Char) : Option ℤ :=
  let m : ℤ × List Char :=
    match cs with
    | '-' :: r => (-1, r)
    | '+' :: r => (1, r)
    | r => (1, r)
  if m.2 ≠ [] ∧ m.2.all Char.isDigit then some (m.1 * digitsVal m.2) else none

/-- Python builtin `float`, modelled on plain decimal literals with an
optional sign and an optional `e`/`E` exponent; other strings (non-numeric
text, `inf`, `nan`, embedded spaces) yield `none`, standing for the
`ValueError` the builtin raises. -/
def pyFloat (cs : List Char) : Option ℚ :=
  let sg : ℚ × List Char :=
    match cs with
    | '-' :: r => (-1, r)
    | '+' :: r => (1, r)
    | r => (1, r)
  let me := splitExp sg.2
  match parseMantissa me.1, me.2 with
  | some m, none => some (sg.1 * m)
  | some m, some ec =>
    (parseExpInt ec).map (fun e =>
      if 0 ≤ e then sg.1 * m * 10 ^ e.toNat
      else sg.1 * m * mkRat 1 (10 ^ (-e).toNat))
  | none, _ => none

/-- First `-`-delimited token of a folder name: Python `name.split("-")[0]`. -/
def firstToken (name : String) : List Char := (pySplitSep '-' name).headD []

/-- Last `-`-delimited token of a folder name: Python `name.split("-")[-1]`. -/
def paramPart (name : String) : List Char := (pySplitSep '-' name).getLastD []

/-- Stable insertion of a point into a list sorted by first component
(helper for the `np.argsort`-based reordering in `analyze_averages`). -/
def insertByFst (p : ℚ × ℚ) : List (ℚ × ℚ) → List (ℚ × ℚ)
  | [] => [p]
  | q :: rest => if p.1 < q.1 then p :: q :: rest else q :: insertByFst p rest

/-- Sort (parameter, value) points by parameter, as `np.argsort(params)`
does before the fit in `analyze_averages`. -/
def sortByFst : List (ℚ × ℚ) → List (ℚ × ℚ)
  | [] => []
  | p :: rest => insertByFst p (sortByFst rest)

/-- Ordinary-least-squares slope of a point list (the slope computed by both
`scipy.stats.linregress` and degree-1 `np.polyfit`), in exact arithmetic. -/
def olsSlope (pts : List (ℚ × ℚ)) : ℚ :=
  let n : ℚ := pts.length
  let sx := (pts.map Prod.fst).sum
  let sy := (pts.map Prod.snd).sum
  let sxx := (pts.map (fun p => p.1 * p.1)).sum
  let sxy := (pts.map (fun p => p.1 * p.2)).sum
  (n * sxy - sx * sy) / (n * sxx - sx * sx)

/-- Ordinary-least-squares intercept of a point list. -/
def olsIntercept (pts : List (ℚ × ℚ)) : ℚ :=
  let n : ℚ := pts.length
  let sx := (pts.map Prod.fst).sum
  let sy := (pts.map Prod.snd).sum
  (sy - olsSlope pts * sx) / n

/-- Squared correlation coefficient R² of a point list; `0` when the y-values
have zero variance, matching `linregress` (which sets `r = 0` there). -/
def olsR2 (pts : List (ℚ × ℚ)) : ℚ :=
  let n : ℚ := pts.length
  let sx := (pts.map Prod.fst).sum
  let sy := (pts.map Prod.snd).sum
  let sxx := (pts.map (fun p => p.1 * p.1)).sum
  let syy := (pts.map (fun p => p.2 * p.2)).sum
  let sxy := (pts.map (fun p => p.1 * p.2)).sum
  let den := (n * sxx - sx * sx) * (n * syy - sy * sy)
  if den = 0 then 0 else (n * sxy - sx * sy) ^ 2 / den

/-- `np.amax(x) == np.amin(x)` for the identical-x guard of `linregress`. -/
def allEqList (xs : List ℚ) : Bool :=
  match xs with
  | [] => true
  | x :: rest => rest.all (fun y => y = x)

/-- `scipy.stats.linregress` on a list of points: raises `ValueError` (the
`.error` branch) when more than one point is supplied and all x-values are
identical; otherwise returns (slope, intercept, R²). -/
def linregress (pts : List (ℚ × ℚ)) : Except Unit (ℚ × ℚ × ℚ) :=
  if allEqList (pts.map Prod.fst) ∧ pts.length > 1 then .error ()
  else .ok (olsSlope pts, olsIntercept pts, olsR2 pts)

/-! ## `data_reader.py` -/

/-- Loop body of `read_data`: walks the file's lines accumulating the
(picosecond, MSD) columns of lines whose femtosecond time lies in
`[startFs, endFs]`.  Lines starting with `#` or containing `Time(fs)` are
ignored; lines with fewer than 5 whitespace fields are skipped.  A retained
line whose time field fails `float` raises `ValueError` (`.error`); the MSD
field is converted only for in-window lines, so it raises only there. -/
def readDataAux (startFs endFs : ℚ) : List String → Except Unit (List ℚ × List ℚ)
  | [] => .ok ([], [])
  | line :: rest =>
    if startsWithHash line ∨ strContains line "Time(fs)" then
      readDataAux startFs endFs rest
    else
      let data := pySplitWs line
      if data.length < 5 then readDataAux startFs endFs rest
      else
        match pyFloat (data.getD 0 []) with
        | none => .error ()
        | some timeFs =>
          if startFs ≤ timeFs ∧ timeFs ≤ endFs then
            match pyFloat (data.getD 4 []) with
            | none => .error ()
            | some v =>
              (readDataAux startFs endFs rest).map
                (fun r => (timeFs / 1000 :: r.1, v :: r.2))
          else readDataAux startFs endFs rest

/-- `read_data(file_path, start_time_ps, end_time_ps)`: windows the series to
`[start_time_ps, end_time_ps]` (comparison done in fs against `start_ps*1000`
and `end_ps*1000`), converts times to ps, and re-bases the retained times by
subtracting the first retained timestamp; an empty window yields `([], [])`. -/
def read_data (lines : List String) (startTimePs endTimePs : ℚ) :
    Except Unit (List ℚ × List ℚ) :=
  (readDataAux (startTimePs * 1000) (endTimePs * 1000) lines).map
    (fun r =>
      match r.1 with
      | [] => ([], r.2)
      | t0 :: _ => (r.1.map (fun t => t - t0), r.2))

/-- `safe_read_file`: runs the read and catches any exception, returning
`None` for the file instead of propagating. -/
def safeRead (x : Except Unit α) : Option α :=
  match x with
  | .ok a => some a
  | .error _ => none

/-- The (time-in-fs, value) samples a file's lines denote, before any
windowing: comment, header and short lines dropped, fields 0 and 4 of the
remaining lines parsed as floats (lines whose fields fail to parse dropped
here; `wellFormedLines` rules those out).  Specification view of the data
format, used to state what `read_data` computes. -/
def parsedSamples (lines : List String) : List (ℚ × ℚ) :=
  lines.filterMap (fun line =>
    if startsWithHash line ∨ strContains line "Time(fs)" then none
    else
      let data := pySplitWs line
      if data.length < 5 then none
      else
        match pyFloat (data.getD 0 []), pyFloat (data.getD 4 []) with
        | some t, some v => some (t, v)
        | _, _ => none)

/-- Every line is a comment/header line, a short line, or has parseable time
and value fields — the inputs on which `read_data` cannot raise. -/
def wellFormedLines (lines : List String) : Bool :=
  lines.all (fun line =>
    (startsWithHash line ∨ strContains line "Time(fs)") ∨
    (pySplitWs line).length < 5 ∨
    ((pyFloat ((pySplitWs line).getD 0 [])).isSome ∧
      (pyFloat ((pySplitWs line).getD 4 [])).isSome))

/-! ## `diffusion_calculator.py` -/

/-- `[i for i, t in enumerate(time) if fit_start <= t <= fit_end]`. -/
def fitIndices (time : List ℚ) (fitStart fitEnd : ℚ) : List ℕ :=
  (List.range time.length).filter
    (fun i => fitStart ≤ time.getD i 0 ∧ time.getD i 0 ≤ fitEnd)

/-- The (time, MSD) points of the fit window, as passed to `linregress`.
Indexing mirrors the source's `time[i]` / `msd[i]`, which assumes `msd` is
parallel to `time` (as `read_data` produces). -/
def fitPoints (time msd : List ℚ) (fitStart fitEnd : ℚ) : List (ℚ × ℚ) :=
  (fitIndices time fitStart fitEnd).map (fun i => (time.getD i 0, msd.getD i 0))

/-- `compute_diffusion_coefficient(time, msd, fit_start, fit_end)`: returns
`None` (`.ok none`) when fewer than 2 points fall in the fit window, otherwise
fits the windowed points with `linregress` (whose `ValueError` on identical
times propagates as `.error`) and returns `(D, slope, intercept, r_squared)`
with `D = slope / 6`. -/
def compute_diffusion_coefficient (time msd : List ℚ) (fitStart fitEnd : ℚ) :
    Except Unit (Option (ℚ × ℚ × ℚ × ℚ)) :=
  if (fitIndices time fitStart fitEnd).length < 2 then .ok none
  else
    match linregress (fitPoints time msd fitStart fitEnd) with
    | .error e => .error e
    | .ok (slope, intercept, r2) => .ok (some (slope / 6, slope, intercept, r2))

/-! ## `process_data.py` -/

/-- The configuration fields `process_single_file` consumes from the
`config.json` dictionary. -/
structure MsdConfig where
  startTimePs : ℚ
  endTimePs : ℚ
  enableFitting : Bool
  targetKeyword : String

/-- `process_single_file`: reads one MSD file (its lines are the model's
stand-in for the file on disk), stores non-empty series in `data_dict` under
`"{temperature}_{file_name}"`, and when fitting is enabled and succeeds,
records the coefficient in `diffusion_results` and the fit in `fit_params`
only when the lowercased-and-stripped target keyword is empty or occurs in
the lowercased file name.  An exception from the regression propagates. -/
def process_single_file (fileName : String) (fileLines : List String)
    (diffusionResults : List (String × (ℚ × ℚ × String)))
    (dataDict : List (String × (List ℚ × List ℚ)))
    (fitParams : List (String × (ℚ × ℚ)))
    (temperature : String) (fitStart fitEnd : ℚ) (cfg : MsdConfig) :
    Except Unit (List (String × (ℚ × ℚ × String)) ×
      List (String × (List ℚ × List ℚ)) × List (String × (ℚ × ℚ))) :=
  let uniqueKey := temperature ++ "_" ++ fileName
  let result := safeRead (read_data fileLines cfg.startTimePs cfg.endTimePs)
  let tm := result.getD ([], [])
  if tm.1 ≠ [] ∧ tm.2 ≠ [] then
    let dataDict2 := pyDictInsert uniqueKey tm dataDict
    if cfg.enableFitting then
      match compute_diffusion_coefficient tm.1 tm.2 fitStart fitEnd with
      | .error e => .error e
      | .ok none => .ok (diffusionResults, dataDict2, fitParams)
      | .ok (some (d, slope, intercept, r2)) =>
        let target := trimList (lowerList cfg.targetKeyword.toList)
        if target = [] ∨ listContains (lowerList fileName.toList) target then
          .ok (pyDictInsert uniqueKey (d, r2, temperature) diffusionResults,
            dataDict2, pyDictInsert uniqueKey (slope, intercept) fitParams)
        else .ok (diffusionResults, dataDict2, fitParams)
    else .ok (diffusionResults, dataDict2, fitParams)
  else .ok (diffusionResults, dataDict, fitParams)

/-! ## `plot_diffusion.py` -/

/-- `values[values > 0]`: the strictly positive diffusion coefficients of one
temperature group. -/
def positiveVals (ds : List ℚ) : List ℚ := ds.filter (fun d => 0 < d)

/-- `np.mean(np.log(positive_values))`, with `np.log` modelled by `Real.log`. -/
noncomputable def meanLn (s : List ℚ) : ℝ :=
  ((s.map (fun d => Real.log (d : ℝ))).sum) / s.length

/-- The aggregation loop of `plot_diffusion_coefficients`: for each temperature
group (taken in the key order the code iterates, i.e. increasing temperature),
keep only the strictly positive D values; a group with none is skipped
(`continue`), otherwise the point `(1/T, mean ln D)` is appended.  The
standard-error series computed alongside feeds only the plot and is omitted. -/
noncomputable def arrheniusPoints : List (ℚ × List ℚ) → List (ℚ × ℝ)
  | [] => []
  | g :: rest =>
    let pos := positiveVals g.2
    if pos.isEmpty then arrheniusPoints rest
    else (1 / g.1, meanLn pos) :: arrheniusPoints rest

/-- Modelled from the spec: the aggregation as §4.6 words it, with the
abscissa `1000/T` instead of the code's `1/T`; used only to compare the
claimed regression inputs with the code's. -/
noncomputable def specArrheniusPoints : List (ℚ × List ℚ) → List (ℚ × ℝ)
  | [] => []
  | g :: rest =>
    let pos := positiveVals g.2
    if pos.isEmpty then specArrheniusPoints rest
    else (1000 / g.1, meanLn pos) :: specArrheniusPoints rest

/-- Ordinary-least-squares slope over real points (the `linregress` slope of
the Arrhenius fit), in exact arithmetic. -/
noncomputable def olsSlopeR (pts : List (ℝ × ℝ)) : ℝ :=
  let n : ℝ := pts.length
  let sx := (pts.map Prod.fst).sum
  let sy := (pts.map Prod.snd).sum
  let sxx := (pts.map (fun p => p.1 * p.1)).sum
  let sxy := (pts.map (fun p => p.1 * p.2)).sum
  (n * sxy - sx * sy) / (n * sxx - sx * sx)

/-- Ordinary-least-squares intercept over real points. -/
noncomputable def olsInterceptR (pts : List (ℝ × ℝ)) : ℝ :=
  let n : ℝ := pts.length
  let sx := (pts.map Prod.fst).sum
  let sy := (pts.map Prod.snd).sum
  (sy - olsSlopeR pts * sx) / n

/-- The numeric tail of `plot_diffusion_coefficients`: aggregate the grouped
D values, return early (`none`) when no group survives, otherwise run the
regression on the aggregated points and report `(slope, intercept,
D0 = exp(intercept))`, as written to `fitting_results.txt`. -/
noncomputable def plotDiffusionFit (groups : List (ℚ × List ℚ)) :
    Option (ℝ × ℝ × ℝ) :=
  let ptsQ := arrheniusPoints groups
  if ptsQ.isEmpty then none
  else
    let pts := ptsQ.map (fun p => ((p.1 : ℝ), p.2))
    let slope := olsSlopeR pts
    let intercept := olsInterceptR pts
    some (slope, intercept, Real.exp intercept)

/-! ## `V参数调整处理代码/main.py` -/

/-- One simulation-run folder of the pressure pipeline: its name and, when the
`results/total-pressure.dat` file exists and `np.loadtxt` parses it, the
pressure samples (one per fs).  `none` stands for the missing-file /
unreadable cases the loop skips. -/
structure Run where
  name : String
  pressureFile : Option (List ℚ)

/-- Loop body of `process_data_files` for one folder: drop folders whose first
`-` token is in `ignore_dirs`, mark membership in `verify_dirs`, drop the
`output` folder and folders whose last `-` token does not parse as a float or
whose data file is missing, window the pressure trace to sample indices
`[max(0, int(start_ps*1000)), min(n-1, int(end_ps*1000))]` (skipping an empty
window), and store the window's mean in `verify_averages` or `averages` keyed
by the parameter token. -/
def processRun (ignoreDirs verifyDirs : List (List Char)) (startPs endPs : ℚ)
    (acc : List (List Char × ℚ) × List (List Char × ℚ)) (run : Run) :
    List (List Char × ℚ) × List (List Char × ℚ) :=
  if firstToken run.name ∈ ignoreDirs then acc
  else
    let isVerify := firstToken run.name ∈ verifyDirs
    if run.name = "output" then acc
    else
      match pyFloat (paramPart run.name) with
      | none => acc
      | some _ =>
        match run.pressureFile with
        | none => acc
        | some pressure =>
          let n : ℤ := pressure.length
          let startIdx := max 0 (pyInt (startPs * 1000))
          let endIdx := min (n - 1) (pyInt (endPs * 1000))
          let seg := pySlice pressure startIdx (endIdx + 1)
          if seg = [] then acc
          else
            let avg := seg.sum / seg.length
            if isVerify then (acc.1, pyDictInsert (paramPart run.name) avg acc.2)
            else (pyDictInsert (paramPart run.name) avg acc.1, acc.2)

/-- `process_data_files`: folds the run folders (the model takes them in the
order processed, i.e. lexicographically sorted names) into the
`(averages, verify_averages)` dictionaries. -/
def process_data_files (runs : List Run) (ignoreDirs verifyDirs : List (List Char))
    (startPs endPs : ℚ) : List (List Char × ℚ) × List (List Char × ℚ) :=
  runs.foldl (processRun ignoreDirs verifyDirs startPs endPs) ([], [])

/-- The parameter-conversion step of `analyze_averages`: keys of `averages`
that parse as floats, paired with their values (keys of a Python dict are
distinct, so the association-list lookup is the key's own value). -/
def validFitInputs (averages : List (List Char × ℚ)) : List (ℚ × ℚ) :=
  averages.filterMap (fun kv => (pyFloat kv.1).map (fun p => (p, kv.2)))

/-- The errors `analyze_averages` raises. -/
inductive AnalyzeError where
  | noValidParams : AnalyzeError
  | insufficientPoints : AnalyzeError
deriving DecidableEq, Repr

/-- `analyze_averages`: converts the non-verify averages to numeric
(parameter, value) points, raising when none or fewer than 2 convert; sorts
them by parameter, fits a degree-1 `np.polyfit` line, and returns
`(slope, intercept, target_param)` with
`target_param = (expected_pressure - intercept) / slope`, computed with no
check on the slope. -/
def analyze_averages (averages : List (List Char × ℚ)) (expectedPressure : ℚ) :
    Except AnalyzeError (ℚ × ℚ × ℚ) :=
  let pv := validFitInputs averages
  if pv = [] then .error .noValidParams
  else if pv.length < 2 then .error .insufficientPoints
  else
    let spv := sortByFst pv
    let slope := olsSlope spv
    let intercept := olsIntercept spv
    .ok (slope, intercept, (expectedPressure - intercept) / slope)

/-! ## Theorems about the claims -/

/-- C1: for every time series and fit window holding at least 2 samples (with
not all sample times equal, which the spec declares degenerate), the estimator
returns the tuple whose first component is the OLS slope of the windowed
(time, MSD) points divided by 6; and the series `msd(t) = 6·0.5·t` sampled at
`t = 0,…,10` with fit window `[0,10]` yields exactly `D = 0.5`. -/
theorem c1_diffusion_is_slope_div_six :
    (∀ (time msd : List ℚ) (fitStart fitEnd : ℚ),
      2 ≤ (fitIndices time fitStart fitEnd).length →
      allEqList ((fitPoints time msd fitStart fitEnd).map Prod.fst) = false →
      compute_diffusion_coefficient time msd fitStart fitEnd =
        .ok (some (olsSlope (fitPoints time msd fitStart fitEnd) / 6,
          olsSlope (fitPoints time msd fitStart fitEnd),
          olsIntercept (fitPoints time msd fitStart fitEnd),
          olsR2 (fitPoints time msd fitStart fitEnd)))) ∧
    compute_diffusion_coefficient [0, 1, 2, 3, 4, 5, 6, 7, 8, 9, 10]
      ([0, 1, 2, 3, 4, 5, 6, 7, 8, 9, 10].map (fun t => 3 * t)) 0 10 =
      .ok (some (1 / 2, 3, 0, 1)) := by
  constructor
  · intro time msd fitStart fitEnd h2 hne
    rw [compute_diffusion_coefficient, if_neg (by omega), linregress, if_neg]
    simp [hne]
  · decide

/-- C1 witness: the general statement applied to a concrete 3-point series. -/
theorem c1_witness :
    2 ≤ (fitIndices [0, 5, 20] 0 10).length ∧
    allEqList ((fitPoints [0, 5, 20] [0, 1, 2] 0 10).map Prod.fst) = false ∧
    compute_diffusion_coefficient [0, 5, 20] [0, 1, 2] 0 10 =
      .ok (some (olsSlope (fitPoints [0, 5, 20] [0, 1, 2] 0 10) / 6,
        olsSlope (fitPoints [0, 5, 20] [0, 1, 2] 0 10),
        olsIntercept (fitPoints [0, 5, 20] [0, 1, 2] 0 10),
        olsR2 (fitPoints [0, 5, 20] [0, 1, 2] 0 10))) :=
  ⟨by decide, by decide,
    c1_diffusion_is_slope_div_six.1 [0, 5, 20] [0, 1, 2] 0 10 (by decide) (by decide)⟩

/-- C7 counterexample: on a 1-point input the regression does not raise any
error — `compute_diffusion_coefficient` returns the sentinel `None`
(`.ok none`), i.e. the normal return value its own docstring documents,
contradicting the claim that the failure is raised rather than returned. -/
theorem c7_counterexample :
    compute_diffusion_coefficient [0] [0] 0 10 = .ok none ∧
    (compute_diffusion_coefficient [0] [0] 0 10).isOk = true := by
  constructor <;> decide

/-- C7 amended: fewer than 2 in-window points makes the estimator return
`None` (a normal value, after a warning log), and the caller
`process_single_file` then completes normally, leaving `diffusion_results`
and `fit_params` untouched — a per-run skip, never a raised error. -/
theorem c7_insufficient_points_returns_none_and_skips :
    (∀ (time msd : List ℚ) (fitStart fitEnd : ℚ),
      (fitIndices time fitStart fitEnd).length < 2 →
      compute_diffusion_coefficient time msd fitStart fitEnd = .ok none) ∧
    (∀ (fileName : String) (fileLines : List String)
      (dr : List (String × (ℚ × ℚ × String)))
      (dd : List (String × (List ℚ × List ℚ))) (fp : List (String × (ℚ × ℚ)))
      (temperature : String) (fitStart fitEnd : ℚ) (cfg : MsdConfig)
      (t m : List ℚ),
      cfg.enableFitting = true →
      safeRead (read_data fileLines cfg.startTimePs cfg.endTimePs) = some (t, m) →
      t ≠ [] → m ≠ [] →
      (fitIndices t fitStart fitEnd).length < 2 →
      process_single_file fileName fileLines dr dd fp temperature fitStart fitEnd cfg =
        .ok (dr, pyDictInsert (temperature ++ "_" ++ fileName) (t, m) dd, fp)) := by
  have hnone : ∀ (time msd : List ℚ) (fitStart fitEnd : ℚ),
      (fitIndices time fitStart fitEnd).length < 2 →
      compute_diffusion_coefficient time msd fitStart fitEnd = .ok none := by
    intro time msd fitStart fitEnd h
    rw [compute_diffusion_coefficient, if_pos h]
  refine ⟨hnone, ?_⟩
  intro fileName fileLines dr dd fp temperature fitStart fitEnd cfg t m hen hread ht hm hlen
  rw [process_single_file, hread]
  simp only [Option.getD_some]
  rw [if_pos ⟨ht, hm⟩, if_pos hen, hnone t m fitStart fitEnd hlen]

/-- C7 witness: the skip behaviour at a concrete one-sample file. -/
theorem c7_witness :
    (⟨0, 100, true, ""⟩ : MsdConfig).enableFitting = true ∧
    safeRead (read_data ["1000 0 0 0 6"] (0 : ℚ) 100) = some ([0], [6]) ∧
    process_single_file "a.dat" ["1000 0 0 0 6"] [] [] [] "600K" 0 10 ⟨0, 100, true, ""⟩ =
      .ok ([], pyDictInsert ("600K" ++ "_" ++ "a.dat") ([0], [6]) [], []) :=
  ⟨rfl, by decide,
    c7_insufficient_points_returns_none_and_skips.2 "a.dat" ["1000 0 0 0 6"] [] [] []
      "600K" 0 10 ⟨0, 100, true, ""⟩ [0] [6] rfl (by decide) (by decide) (by decide)
      (by decide)⟩

/-- C9 counterexample: a malformed value field in a retained in-window line
makes `read_data` raise (`.error`), so `safe_read_file` returns `None` for the
whole file, losing the following well-formed line — parsing does not continue
with the remaining lines as claimed. -/
theorem c9_counterexample :
    read_data ["1000 0 0 0 abc", "2000 0 0 0 7"] 0 30 = .error () ∧
    safeRead (read_data ["1000 0 0 0 abc", "2000 0 0 0 7"] 0 30) = none ∧
    read_data ["2000 0 0 0 7"] 0 30 = .ok ([0], [7]) := by
  refine ⟨by decide, by decide, by decide⟩

/-- C9 amended: comment/header lines and lines with fewer than 5 fields are
skipped with parsing continuing, but a retained line whose time field fails
`float` aborts the file's read with an exception, which `safe_read_file`
converts to `None` for that file (the run is skipped; the process never
aborts). -/
theorem c9_skip_and_abort_policy :
    (∀ (line : String) (rest : List String) (sfs efs : ℚ),
      (startsWithHash line ∨ strContains line "Time(fs)") →
      readDataAux sfs efs (line :: rest) = readDataAux sfs efs rest) ∧
    (∀ (line : String) (rest : List String) (sfs efs : ℚ),
      ¬(startsWithHash line ∨ strContains line "Time(fs)") →
      (pySplitWs line).length < 5 →
      readDataAux sfs efs (line :: rest) = readDataAux sfs efs rest) ∧
    (∀ (line : String) (rest : List String) (sfs efs : ℚ),
      ¬(startsWithHash line ∨ strContains line "Time(fs)") →
      ¬((pySplitWs line).length < 5) →
      pyFloat ((pySplitWs line).getD 0 []) = none →
      readDataAux sfs efs (line :: rest) = .error ()) ∧
    (∀ (x : Except Unit (List ℚ × List ℚ)), x = .error () → safeRead x = none) := by
  refine ⟨?_, ?_, ?_, ?_⟩
  · intro line rest sfs efs h
    rw [readDataAux, if_pos h]
  · intro line rest sfs efs h hlen
    rw [readDataAux, if_neg h]
    simp only [if_pos hlen]
  · intro line rest sfs efs h hlen hbad
    rw [readDataAux, if_neg h]
    simp only [if_neg hlen, hbad]
  · intro x hx
    rw [hx, safeRead]

/-- C9 witness: each clause of the skip/abort policy at a concrete line. -/
theorem c9_witness :
    readDataAux 0 30000 ["# x", "1 2 3"] = readDataAux 0 30000 ["1 2 3"] ∧
    readDataAux 0 30000 ["1 2 3"] = readDataAux 0 30000 [] ∧
    readDataAux 0 30000 ["abc 0 0 0 1"] = .error () ∧
    safeRead (Except.error () : Except Unit (List ℚ × List ℚ)) = none :=
  ⟨c9_skip_and_abort_policy.1 "# x" ["1 2 3"] 0 30000 (by decide),
    c9_skip_and_abort_policy.2.1 "1 2 3" [] 0 30000 (by decide) (by decide),
    c9_skip_and_abort_policy.2.2.1 "abc 0 0 0 1" [] 0 30000 (by decide) (by decide)
      (by decide),
    c9_skip_and_abort_policy.2.2.2 (Except.error ()) rfl⟩

/-- Helper for C2: on well-formed lines the reader's loop returns, without
error, the femtosecond-window filter of the parsed samples, times divided by
1000. -/
theorem readDataAux_on_wellFormed (sfs efs : ℚ) (lines : List String)
    (hwf : wellFormedLines lines = true) :
    readDataAux sfs efs lines =
      .ok ((((parsedSamples lines).filter
          (fun p => sfs ≤ p.1 ∧ p.1 ≤ efs)).map (fun p => p.1 / 1000)),
        (((parsedSamples lines).filter
          (fun p => sfs ≤ p.1 ∧ p.1 ≤ efs)).map Prod.snd)) := by
  induction lines with
  | nil => simp [readDataAux, parsedSamples]
  | cons line rest ih =>
    rw [wellFormedLines, List.all_cons, Bool.and_eq_true] at hwf
    obtain ⟨hline, hrest⟩ := hwf
    have ih2 := ih hrest
    rw [decide_eq_true_eq] at hline
    by_cases hc : startsWithHash line ∨ strContains line "Time(fs)"
    · rw [readDataAux, if_pos hc, ih2]
      have hps : parsedSamples (line :: rest) = parsedSamples rest := by
        rw [parsedSamples, List.filterMap_cons, if_pos hc]
        rfl
      rw [hps]
    · by_cases hlen : (pySplitWs line).length < 5
      · rw [readDataAux, if_neg hc]
        simp only [if_pos hlen]
        rw [ih2]
        have hps : parsedSamples (line :: rest) = parsedSamples rest := by
          rw [parsedSamples, List.filterMap_cons, if_neg hc]
          simp only [if_pos hlen]
          rfl
        rw [hps]
      · rcases hline with hline | hline | hline
        · exact absurd hline hc
        · exact absurd hline hlen
        · obtain ⟨h0, h4⟩ := hline
          obtain ⟨t, ht⟩ := Option.isSome_iff_exists.mp h0
          obtain ⟨v, hv⟩ := Option.isSome_iff_exists.mp h4
          have hps : parsedSamples (line :: rest) = (t, v) :: parsedSamples rest := by
            rw [parsedSamples, List.filterMap_cons, if_neg hc]
            simp only [if_neg hlen, ht, hv]
            rfl
          rw [readDataAux, if_neg hc]
          simp only [if_neg hlen, ht, hv]
          by_cases hw : sfs ≤ t ∧ t ≤ efs
          · rw [if_pos hw, ih2, hps]
            rw [List.filter_cons_of_pos (by simpa using hw)]
            rfl
          · rw [if_neg hw, ih2, hps]
            rw [List.filter_cons_of_neg (by simpa using hw)]

/-- C2: on well-formed lines, `read_data` returns exactly the parsed samples
whose time, converted from fs to ps by division by 1000, lies in
`[start_ps, end_ps]` inclusive; the retained timestamps are re-based by
subtracting the first retained timestamp (so a non-empty result starts at
time 0), and an empty window yields the empty series `([], [])`, not an
error. -/
theorem c2_window_filter_and_rebase (lines : List String) (s e : ℚ)
    (hwf : wellFormedLines lines = true) :
    read_data lines s e =
      .ok (match (parsedSamples lines).filter
            (fun p => s ≤ p.1 / 1000 ∧ p.1 / 1000 ≤ e) with
        | [] => ([], [])
        | p :: ps =>
          (((p :: ps).map (fun q => q.1 / 1000 - p.1 / 1000)),
            ((p :: ps).map Prod.snd))) := by
  have hfilter : (parsedSamples lines).filter
        (fun p => s * 1000 ≤ p.1 ∧ p.1 ≤ e * 1000) =
      (parsedSamples lines).filter
        (fun p => s ≤ p.1 / 1000 ∧ p.1 / 1000 ≤ e) := by
    apply List.filter_congr
    intro p _
    have h1 : s ≤ p.1 / 1000 ↔ s * 1000 ≤ p.1 :=
      (le_div_iff₀ (by norm_num : (0 : ℚ) < 1000))
    have h2 : p.1 / 1000 ≤ e ↔ p.1 ≤ e * 1000 :=
      (div_le_iff₀ (by norm_num : (0 : ℚ) < 1000))
    simp [h1, h2]
  rw [read_data, readDataAux_on_wellFormed (s * 1000) (e * 1000) lines hwf]
  rw [hfilter]
  cases hk : (parsedSamples lines).filter
      (fun p => s ≤ p.1 / 1000 ∧ p.1 / 1000 ≤ e) with
  | nil => rfl
  | cons p ps =>
    show Except.ok _ = _
    congr 1
    simp only [List.map_cons]
    congr 1
    simp [List.map_map, Function.comp]

/-- C2 witness: a concrete file with a comment line, an out-of-window sample,
two in-window samples and a short line; the result is windowed, re-based to
start at 0, and keeps the in-window values. -/
theorem c2_witness :
    wellFormedLines ["# c", "0 0 0 0 9", "25000 0 0 0 2.5", "26000 0 0 0 4", "1 2 3"] = true ∧
    read_data ["# c", "0 0 0 0 9", "25000 0 0 0 2.5", "26000 0 0 0 4", "1 2 3"] 20 30 =
      .ok ([0, 1], [5 / 2, 4]) := by
  have h := c2_window_filter_and_rebase
    ["# c", "0 0 0 0 9", "25000 0 0 0 2.5", "26000 0 0 0 4", "1 2 3"] 20 30 (by decide)
  refine ⟨by decide, ?_⟩
  rw [h]
  decide

/-- C10: when a file's series reads non-empty, fitting is enabled and the
coefficient computation succeeds, the result is written to
`diffusion_results` (and the fit to `fit_params`) exactly when the
lowercased-and-stripped target keyword is empty or occurs in the lowercased
file name; otherwise both mappings are left unchanged (the coefficient was
computed but not saved), while the series is stored in `data_dict` either
way. -/
theorem c10_keyword_filter_controls_recording :
    ∀ (fileName : String) (fileLines : List String)
      (dr : List (String × (ℚ × ℚ × String)))
      (dd : List (String × (List ℚ × List ℚ))) (fp : List (String × (ℚ × ℚ)))
      (temperature : String) (fitStart fitEnd : ℚ) (cfg : MsdConfig)
      (t m : List ℚ) (d slope intercept r2 : ℚ),
      cfg.enableFitting = true →
      safeRead (read_data fileLines cfg.startTimePs cfg.endTimePs) = some (t, m) →
      t ≠ [] → m ≠ [] →
      compute_diffusion_coefficient t m fitStart fitEnd =
        .ok (some (d, slope, intercept, r2)) →
      process_single_file fileName fileLines dr dd fp temperature fitStart fitEnd cfg =
        .ok
          ((if trimList (lowerList cfg.targetKeyword.toList) = [] ∨
              listContains (lowerList fileName.toList)
                (trimList (lowerList cfg.targetKeyword.toList)) then
            pyDictInsert (temperature ++ "_" ++ fileName) (d, r2, temperature) dr
          else dr),
          pyDictInsert (temperature ++ "_" ++ fileName) (t, m) dd,
          (if trimList (lowerList cfg.targetKeyword.toList) = [] ∨
              listContains (lowerList fileName.toList)
                (trimList (lowerList cfg.targetKeyword.toList)) then
            pyDictInsert (temperature ++ "_" ++ fileName) (slope, intercept) fp
          else fp)) := by
  intro fileName fileLines dr dd fp temperature fitStart fitEnd cfg t m d slope
    intercept r2 hen hread ht hm hcomp
  rw [process_single_file, hread]
  simp only [Option.getD_some]
  rw [if_pos ⟨ht, hm⟩, if_pos hen]
  simp only [hcomp]
  by_cases hcond : trimList (lowerList cfg.targetKeyword.toList) = [] ∨
      listContains (lowerList fileName.toList)
        (trimList (lowerList cfg.targetKeyword.toList))
  · rw [if_pos hcond, if_pos hcond, if_pos hcond]
  · rw [if_neg hcond, if_neg hcond, if_neg hcond]

/-- C10 witness: a file whose name lacks the keyword `ti` has its coefficient
computed but not recorded. -/
theorem c10_witness :
    (⟨0, 100, true, " Ti "⟩ : MsdConfig).enableFitting = true ∧
    process_single_file "msd_pb.dat" ["0 0 0 0 0", "1000 0 0 0 6", "2000 0 0 0 12"]
      [] [] [] "600K" 0 10 ⟨0, 100, true, " Ti "⟩ =
      .ok ([], pyDictInsert ("600K" ++ "_" ++ "msd_pb.dat") ([0, 1, 2], [0, 6, 12]) [], []) := by
  have h := c10_keyword_filter_controls_recording "msd_pb.dat"
    ["0 0 0 0 0", "1000 0 0 0 6", "2000 0 0 0 12"] [] [] [] "600K" 0 10
    ⟨0, 100, true, " Ti "⟩ [0, 1, 2] [0, 6, 12] 1 6 0 1 rfl (by decide) (by decide)
    (by decide) (by decide)
  have hncond : ¬(trimList (lowerList (" Ti " : String).toList) = [] ∨
      listContains (lowerList ("msd_pb.dat" : String).toList)
        (trimList (lowerList (" Ti " : String).toList)) = true) := by decide
  refine ⟨rfl, ?_⟩
  rw [h]
  dsimp only
  rw [if_neg hncond, if_neg hncond]

/-- C4: whenever `analyze_averages` returns a fit `(slope, intercept)` and a
target parameter with nonzero slope, the target parameter is exactly
`(expected_pressure - intercept) / slope`; the fit through `(1,3)` and
`(2,5)` (slope 2, intercept 1) with target value 5 yields parameter 2, and
the end-to-end pressure scenario of spec §8 — runs `n-1.0`, `n-2.0`, `v-1.5`
averaging 0.4, 0.6, 0.5 with `verify_dirs = ["v"]` and target pressure 0.5 —
yields fit slope 0.2, intercept 0.2 and predicted parameter 1.5. -/
theorem c4_parameter_solver_inversion :
    (∀ (averages : List (List Char × ℚ)) (expected s i t : ℚ),
      analyze_averages averages expected = .ok (s, i, t) → s ≠ 0 →
      t = (expected - i) / s) ∧
    analyze_averages [("1".toList, 3), ("2".toList, 5)] 5 = .ok (2, 1, 2) ∧
    analyze_averages
      (process_data_files [⟨"n-1.0", some [2 / 5, 2 / 5]⟩, ⟨"n-2.0", some [3 / 5, 3 / 5]⟩,
        ⟨"v-1.5", some [1 / 2, 1 / 2]⟩] [] ["v".toList] 0 100).1 (1 / 2) =
      .ok (1 / 5, 1 / 5, 3 / 2) := by
  refine ⟨?_, by decide, by decide⟩
  intro averages expected s i t h hs
  rw [analyze_averages] at h
  split_ifs at h
  all_goals first
  | exact Except.noConfusion h
  | (have h2 := Except.ok.inj h
     rw [Prod.mk.injEq, Prod.mk.injEq] at h2
     obtain ⟨h3, h5, h6⟩ := h2
     subst h3
     subst h5
     subst h6
     rfl)

/-- C4 witness: the solver formula applied to the slope-2, intercept-1,
target-5 instance. -/
theorem c4_witness :
    (2 : ℚ) ≠ 0 ∧ (2 : ℚ) = (5 - 1) / 2 :=
  ⟨by norm_num,
    c4_parameter_solver_inversion.1 [("1".toList, 3), ("2".toList, 5)] 5 2 1 2 (by decide)
      (by norm_num)⟩

/-- C8 counterexample: two runs with equal average pressure give a fitted line
with slope exactly 0, and `analyze_averages` still completes with a normal
result — no `DegenerateInputError` (or any error) is raised. -/
theorem c8_counterexample :
    olsSlope (sortByFst (validFitInputs [("1".toList, 1 / 2), ("2".toList, 1 / 2)])) = 0 ∧
    (analyze_averages [("1".toList, 1 / 2), ("2".toList, 1 / 2)] (1 / 2)).isOk = true := by
  constructor <;> decide

/-- C8 amended: `analyze_averages` guards only the number of valid points,
never the slope: with at least 2 valid points it always returns, computing
`(expected - intercept) / slope` by unconditional division (at slope 0 the
Python float quotient is non-finite; the exact model's total division stands
in for it), rather than failing with a `DegenerateInputError`. -/
theorem c8_no_zero_slope_guard :
    ∀ (averages : List (List Char × ℚ)) (expected : ℚ),
      2 ≤ (validFitInputs averages).length →
      analyze_averages averages expected =
        .ok (olsSlope (sortByFst (validFitInputs averages)),
          olsIntercept (sortByFst (validFitInputs averages)),
          (expected - olsIntercept (sortByFst (validFitInputs averages))) /
            olsSlope (sortByFst (validFitInputs averages))) := by
  intro averages expected h2
  have hne : validFitInputs averages ≠ [] := by
    intro hnil
    rw [hnil] at h2
    simp at h2
  have hlt : ¬(validFitInputs averages).length < 2 := by omega
  rw [analyze_averages, if_neg hne, if_neg hlt]

/-- C8 witness: the guard-free completion at the concrete zero-slope input. -/
theorem c8_witness :
    2 ≤ (validFitInputs [("1".toList, 1 / 2), ("2".toList, 1 / 2)]).length ∧
    analyze_averages [("1".toList, 1 / 2), ("2".toList, 1 / 2)] (1 / 2) =
      .ok (olsSlope (sortByFst (validFitInputs [("1".toList, 1 / 2), ("2".toList, 1 / 2)])),
        olsIntercept (sortByFst (validFitInputs [("1".toList, 1 / 2), ("2".toList, 1 / 2)])),
        ((1 / 2) - olsIntercept (sortByFst (validFitInputs [("1".toList, 1 / 2), ("2".toList, 1 / 2)]))) /
          olsSlope (sortByFst (validFitInputs [("1".toList, 1 / 2), ("2".toList, 1 / 2)]))) :=
  ⟨by decide,
    c8_no_zero_slope_guard [("1".toList, 1 / 2), ("2".toList, 1 / 2)] (1 / 2) (by decide)⟩

/-- Helper: membership after a Python-dict insertion comes from the inserted
key or from the original dictionary. -/
theorem mem_pyDictInsert [DecidableEq κ] (k : κ) (v : α)
    (d : List (κ × α)) (kv : κ × α) (h : kv ∈ pyDictInsert k v d) :
    kv.1 = k ∨ kv ∈ d := by
  rw [pyDictInsert] at h
  split_ifs at h with hd
  · obtain ⟨p, hp, heq⟩ := List.mem_map.mp h
    by_cases hpk : p.1 = k
    · rw [if_pos hpk] at heq
      left
      rw [← heq]
    · rw [if_neg hpk] at heq
      right
      rw [← heq]
      exact hp
  · rcases List.mem_append.mp h with h | h
    · right
      exact h
    · left
      rw [List.mem_singleton.mp h]

/-- Helper: one step of `process_data_files` either leaves the accumulator
unchanged, or (for a verify run) appends only to `verify_averages`, or (for a
normal run) appends only to `averages`; the branch taken and the stored value
do not depend on the accumulator. -/
theorem processRun_shape (ig vf : List (List Char)) (s e : ℚ) (run : Run) :
    (∀ acc, processRun ig vf s e acc run = acc) ∨
    (∃ v, firstToken run.name ∉ ig ∧ firstToken run.name ∈ vf ∧
      ∀ acc, processRun ig vf s e acc run =
        (acc.1, pyDictInsert (paramPart run.name) v acc.2)) ∨
    (∃ v, firstToken run.name ∉ ig ∧ firstToken run.name ∉ vf ∧
      ∀ acc, processRun ig vf s e acc run =
        (pyDictInsert (paramPart run.name) v acc.1, acc.2)) := by
  by_cases h1 : firstToken run.name ∈ ig
  · left
    intro acc
    rw [processRun, if_pos h1]
  · by_cases h2 : run.name = "output"
    · left
      intro acc
      rw [processRun, if_neg h1]
      dsimp only
      rw [if_pos h2]
    · cases hp : pyFloat (paramPart run.name) with
      | none =>
        left
        intro acc
        rw [processRun, if_neg h1]
        dsimp only
        rw [if_neg h2, hp]
      | some q =>
        cases hf : run.pressureFile with
        | none =>
          left
          intro acc
          rw [processRun, if_neg h1]
          dsimp only
          rw [if_neg h2, hp, hf]
        | some pressure =>
          by_cases hseg : pySlice pressure (max 0 (pyInt (s * 1000)))
              (min ((pressure.length : ℤ) - 1) (pyInt (e * 1000)) + 1) = []
          · left
            intro acc
            rw [processRun, if_neg h1]
            dsimp only
            rw [if_neg h2, hp, hf]
            dsimp only
            rw [if_pos hseg]
          · by_cases hv : firstToken run.name ∈ vf
            · right
              left
              refine ⟨(pySlice pressure (max 0 (pyInt (s * 1000)))
                  (min ((pressure.length : ℤ) - 1) (pyInt (e * 1000)) + 1)).sum /
                ((pySlice pressure (max 0 (pyInt (s * 1000)))
                  (min ((pressure.length : ℤ) - 1) (pyInt (e * 1000)) + 1)).length : ℚ),
                h1, hv, ?_⟩
              intro acc
              rw [processRun, if_neg h1]
              dsimp only
              rw [if_neg h2, hp, hf]
              dsimp only
              rw [if_neg hseg, if_pos hv]
            · right
              right
              refine ⟨(pySlice pressure (max 0 (pyInt (s * 1000)))
                  (min ((pressure.length : ℤ) - 1) (pyInt (e * 1000)) + 1)).sum /
                ((pySlice pressure (max 0 (pyInt (s * 1000)))
                  (min ((pressure.length : ℤ) - 1) (pyInt (e * 1000)) + 1)).length : ℚ),
                h1, hv, ?_⟩
              intro acc
              rw [processRun, if_neg h1]
              dsimp only
              rw [if_neg h2, hp, hf]
              dsimp only
              rw [if_neg hseg, if_neg hv]

/-- Helper for C5: the `averages` component produced by the folder loop is
unchanged when the verify runs are removed from the input, whatever the
starting accumulators. -/
theorem process_fold_fst_drop_verify (ig vf : List (List Char)) (s e : ℚ) :
    ∀ (runs : List Run) (a b b2 : List (List Char × ℚ)),
      (List.foldl (processRun ig vf s e) (a, b) runs).1 =
      (List.foldl (processRun ig vf s e) (a, b2)
        (runs.filter (fun r => firstToken r.name ∉ vf))).1 := by
  intro runs
  induction runs with
  | nil => intro a b b2; rfl
  | cons run rest ih =>
    intro a b b2
    rcases processRun_shape ig vf s e run with hs | ⟨v, hig, hv, hs⟩ | ⟨v, hig, hv, hs⟩
    · by_cases hvf : firstToken run.name ∈ vf
      · rw [List.filter_cons_of_neg (by simpa using hvf), List.foldl_cons, hs (a, b)]
        exact ih a b b2
      · rw [List.filter_cons_of_pos (by simpa using hvf), List.foldl_cons,
          List.foldl_cons, hs (a, b), hs (a, b2)]
        exact ih a b b2
    · rw [List.filter_cons_of_neg (by simpa using hv), List.foldl_cons, hs (a, b)]
      exact ih a _ b2
    · rw [List.filter_cons_of_pos (by simpa using hv), List.foldl_cons,
        List.foldl_cons, hs (a, b), hs (a, b2)]
      exact ih _ _ _

/-- Helper for C5: every entry of the `averages` accumulator after the folder
loop either was there initially or originates in a non-ignored, non-verify
run whose parameter token is the entry's key. -/
theorem process_fold_fst_provenance (ig vf : List (List Char)) (s e : ℚ) :
    ∀ (runs : List Run) (acc : List (List Char × ℚ) × List (List Char × ℚ))
      (kv : List Char × ℚ),
      kv ∈ (List.foldl (processRun ig vf s e) acc runs).1 →
      kv ∈ acc.1 ∨ ∃ r ∈ runs, firstToken r.name ∉ ig ∧ firstToken r.name ∉ vf ∧
        kv.1 = paramPart r.name := by
  intro runs
  induction runs with
  | nil =>
    intro acc kv h
    left
    exact h
  | cons run rest ih =>
    intro acc kv h
    rw [List.foldl_cons] at h
    rcases ih _ kv h with h2 | ⟨r, hr, hprov⟩
    · rcases processRun_shape ig vf s e run with hs | ⟨v, hig, hv, hs⟩ | ⟨v, hig, hv, hs⟩
      · rw [hs acc] at h2
        left
        exact h2
      · rw [hs acc] at h2
        left
        exact h2
      · rw [hs acc] at h2
        rcases mem_pyDictInsert _ _ _ _ h2 with hk | hmem
        · right
          exact ⟨run, List.mem_cons_self run rest, hig, hv, hk⟩
        · left
          exact hmem
    · right
      exact ⟨r, List.mem_cons_of_mem run hr, hprov⟩

/-- Helper for C5: every entry of the `verify_averages` accumulator after the
folder loop either was there initially or originates in a non-ignored verify
run whose parameter token is the entry's key. -/
theorem process_fold_snd_provenance (ig vf : List (List Char)) (s e : ℚ) :
    ∀ (runs : List Run) (acc : List (List Char × ℚ) × List (List Char × ℚ))
      (kv : List Char × ℚ),
      kv ∈ (List.foldl (processRun ig vf s e) acc runs).2 →
      kv ∈ acc.2 ∨ ∃ r ∈ runs, firstToken r.name ∉ ig ∧ firstToken r.name ∈ vf ∧
        kv.1 = paramPart r.name := by
  intro runs
  induction runs with
  | nil =>
    intro acc kv h
    left
    exact h
  | cons run rest ih =>
    intro acc kv h
    rw [List.foldl_cons] at h
    rcases ih _ kv h with h2 | ⟨r, hr, hprov⟩
    · rcases processRun_shape ig vf s e run with hs | ⟨v, hig, hv, hs⟩ | ⟨v, hig, hv, hs⟩
      · rw [hs acc] at h2
        left
        exact h2
      · rw [hs acc] at h2
        rcases mem_pyDictInsert _ _ _ _ h2 with hk | hmem
        · right
          exact ⟨run, List.mem_cons_self run rest, hig, hv, hk⟩
        · left
          exact hmem
      · rw [hs acc] at h2
        left
        exact h2
    · right
      exact ⟨r, List.mem_cons_of_mem run hr, hprov⟩

/-- C5: results of runs whose class-prefix (first `-` token of the folder
name) is in the verify set never reach the fit inputs — the `averages`
dictionary is exactly what it would be with the verify runs deleted, every
fit point of `analyze_averages` originates in a non-ignore, non-verify run,
and verify results are stored separately in `verify_averages`, each entry
keyed by a verify run's parameter token. -/
theorem c5_verify_runs_never_in_fit :
    (∀ (runs : List Run) (ig vf : List (List Char)) (s e : ℚ),
      (process_data_files runs ig vf s e).1 =
        (process_data_files (runs.filter (fun r => firstToken r.name ∉ vf)) ig vf s e).1) ∧
    (∀ (runs : List Run) (ig vf : List (List Char)) (s e : ℚ) (p : ℚ × ℚ),
      p ∈ validFitInputs (process_data_files runs ig vf s e).1 →
      ∃ r ∈ runs, firstToken r.name ∉ ig ∧ firstToken r.name ∉ vf ∧
        pyFloat (paramPart r.name) = some p.1) ∧
    (∀ (runs : List Run) (ig vf : List (List Char)) (s e : ℚ) (kv : List Char × ℚ),
      kv ∈ (process_data_files runs ig vf s e).2 →
      ∃ r ∈ runs, firstToken r.name ∉ ig ∧ firstToken r.name ∈ vf ∧
        kv.1 = paramPart r.name) := by
  refine ⟨?_, ?_, ?_⟩
  · intro runs ig vf s e
    exact process_fold_fst_drop_verify ig vf s e runs [] [] []
  · intro runs ig vf s e p hp
    obtain ⟨kv, hkv, heq⟩ := List.mem_filterMap.mp hp
    obtain ⟨q, hq, hqp⟩ := Option.map_eq_some'.mp heq
    rcases process_fold_fst_provenance ig vf s e runs ([], []) kv hkv with h | ⟨r, hr, h1, h2, h3⟩
    · exact absurd h (List.not_mem_nil kv)
    · refine ⟨r, hr, h1, h2, ?_⟩
      rw [← h3, hq]
      rw [← hqp]
  · intro runs ig vf s e kv hkv
    rcases process_fold_snd_provenance ig vf s e runs ([], []) kv hkv with h | ⟨r, hr, h1, h2, h3⟩
    · exact absurd h (List.not_mem_nil kv)
    · exact ⟨r, hr, h1, h2, h3⟩

/-- C5 witness: the fit-input provenance applied to the spec §8 scenario with
a verify run present. -/
theorem c5_witness :
    ((1 : ℚ), 2 / 5) ∈ validFitInputs
      (process_data_files [⟨"n-1.0", some [2 / 5, 2 / 5]⟩, ⟨"n-2.0", some [3 / 5, 3 / 5]⟩,
        ⟨"v-1.5", some [1 / 2, 1 / 2]⟩] [] ["v".toList] 0 100).1 ∧
    ∃ r ∈ ([⟨"n-1.0", some [2 / 5, 2 / 5]⟩, ⟨"n-2.0", some [3 / 5, 3 / 5]⟩,
        ⟨"v-1.5", some [1 / 2, 1 / 2]⟩] : List Run),
      firstToken r.name ∉ ([] : List (List Char)) ∧ firstToken r.name ∉ ["v".toList] ∧
      pyFloat (paramPart r.name) = some ((1 : ℚ), (2 : ℚ) / 5).1 :=
  ⟨by decide,
    c5_verify_runs_never_in_fit.2.1
      [⟨"n-1.0", some [2 / 5, 2 / 5]⟩, ⟨"n-2.0", some [3 / 5, 3 / 5]⟩,
        ⟨"v-1.5", some [1 / 2, 1 / 2]⟩] [] ["v".toList] 0 100 ((1 : ℚ), 2 / 5) (by decide)⟩

/-- Helper: keeping only positive values is idempotent. -/
theorem positiveVals_idem (ds : List ℚ) : positiveVals (positiveVals ds) = positiveVals ds := by
  simp [positiveVals, List.filter_filter]

/-- C3: the Arrhenius aggregation uses only the strictly positive D values of
each temperature group (the output is unchanged when each group is replaced
by its positive survivors), drops entirely any group with no positive value,
and on D values `[1, 2, -1, 4]` for one temperature computes the mean of
`ln` over exactly the three survivors `[1, 2, 4]`. -/
theorem c3_log_mean_uses_only_positive :
    (∀ groups : List (ℚ × List ℚ),
      arrheniusPoints groups =
        arrheniusPoints (groups.map (fun g => (g.1, positiveVals g.2)))) ∧
    (∀ (T : ℚ) (ds : List ℚ) (rest : List (ℚ × List ℚ)),
      positiveVals ds = [] →
      arrheniusPoints ((T, ds) :: rest) = arrheniusPoints rest) ∧
    arrheniusPoints [(600, [1, 2, -1, 4])] =
      [(1 / 600, (([1, 2, 4] : List ℚ).map (fun d => Real.log (d : ℝ))).sum / 3)] := by
  refine ⟨?_, ?_, ?_⟩
  · intro groups
    induction groups with
    | nil => rfl
    | cons g rest ih =>
      rw [List.map_cons]
      simp only [arrheniusPoints]
      rw [positiveVals_idem, ih]
  · intro T ds rest h
    simp only [arrheniusPoints]
    rw [h]
    simp
  · simp only [arrheniusPoints]
    rw [show positiveVals [1, 2, -1, 4] = [1, 2, 4] from by decide]
    norm_num [meanLn]

/-- C3 witness: a group whose values are all non-positive is dropped
entirely from the aggregation. -/
theorem c3_witness :
    positiveVals [-1, 0] = [] ∧
    arrheniusPoints [(600, [-1, 0]), (500, [1])] = arrheniusPoints [(500, [1])] :=
  ⟨by decide, c3_log_mean_uses_only_positive.2.1 600 [-1, 0] [(500, [1])] (by decide)⟩

/-- C6 counterexample: for temperature groups 500 K (D values `[2]`) and
1000 K (D values `[1]`), the x-coordinates the code regresses against are
`[1/500, 1/1000]`, not the claimed `[1000/500, 1000/1000]`, and the slope of
the code's fit differs from the slope of the fit over the 1000/T points
(1000·ln 2 versus ln 2) — the regression is not run on the 1000/T values. -/
theorem c6_counterexample :
    (arrheniusPoints [(500, [2]), (1000, [1])]).map Prod.fst = [1 / 500, 1 / 1000] ∧
    (specArrheniusPoints [(500, [2]), (1000, [1])]).map Prod.fst =
      [1000 / 500, 1000 / 1000] ∧
    olsSlopeR ((arrheniusPoints [(500, [2]), (1000, [1])]).map
        (fun p => ((p.1 : ℝ), p.2))) ≠
      olsSlopeR ((specArrheniusPoints [(500, [2]), (1000, [1])]).map
        (fun p => ((p.1 : ℝ), p.2))) := by
  have harr : arrheniusPoints [(500, [2]), (1000, [1])] =
      [(1 / 500, Real.log 2), (1 / 1000, 0)] := by
    simp only [arrheniusPoints]
    rw [show positiveVals [(2 : ℚ)] = [2] from by decide,
      show positiveVals [(1 : ℚ)] = [1] from by decide]
    norm_num [meanLn]
  have hspec : specArrheniusPoints [(500, [2]), (1000, [1])] =
      [(2, Real.log 2), (1, 0)] := by
    simp only [specArrheniusPoints]
    rw [show positiveVals [(2 : ℚ)] = [2] from by decide,
      show positiveVals [(1 : ℚ)] = [1] from by decide]
    norm_num [meanLn]
  have hs1 : olsSlopeR [((((1 : ℚ) / 500 : ℚ) : ℝ), Real.log 2),
      ((((1 : ℚ) / 1000 : ℚ) : ℝ), 0)] = 1000 * Real.log 2 := by
    rw [olsSlopeR]
    push_cast
    norm_num
    ring_nf
  have hs2 : olsSlopeR [((((2 : ℚ)) : ℝ), Real.log 2), ((((1 : ℚ)) : ℝ), 0)] =
      Real.log 2 := by
    rw [olsSlopeR]
    push_cast
    norm_num
    ring
  refine ⟨?_, ?_, ?_⟩
  · rw [harr]
    simp
  · rw [hspec]
    norm_num
  · rw [harr, hspec]
    simp only [List.map_cons, List.map_nil]
    rw [hs1, hs2]
    have hl : 0 < Real.log 2 := Real.log_pos (by norm_num)
    intro h
    nlinarith

/-- C6 amended: the aggregation pairs each surviving temperature group with
the point `(1/T, mean ln D)` — the regression abscissa is `1/T`, not
`1000/T` — and whenever at least one group survives, the pipeline runs the
regression on exactly those points and reports `D₀ = exp(intercept)` of that
fit. -/
theorem c6_fit_on_inverse_temperature :
    (∀ groups : List (ℚ × List ℚ),
      arrheniusPoints groups = groups.filterMap (fun g =>
        if positiveVals g.2 = [] then none
        else some (1 / g.1, meanLn (positiveVals g.2)))) ∧
    (∀ groups : List (ℚ × List ℚ),
      arrheniusPoints groups ≠ [] →
      plotDiffusionFit groups =
        some (olsSlopeR ((arrheniusPoints groups).map (fun p => ((p.1 : ℝ), p.2))),
          olsInterceptR ((arrheniusPoints groups).map (fun p => ((p.1 : ℝ), p.2))),
          Real.exp (olsInterceptR ((arrheniusPoints groups).map
            (fun p => ((p.1 : ℝ), p.2)))))) := by
  constructor
  · intro groups
    induction groups with
    | nil => rfl
    | cons g rest ih =>
      rw [List.filterMap_cons]
      simp only [arrheniusPoints]
      by_cases h : positiveVals g.2 = []
      · rw [if_pos h, ih, h]
        simp
      · rw [if_neg h, ← ih]
        have : (positiveVals g.2).isEmpty = false := by
          rw [List.isEmpty_eq_false_iff_exists_mem]
          rcases List.exists_mem_of_ne_nil _ h with ⟨a, ha⟩
          exact ⟨a, ha⟩
        rw [this]
        simp
  · intro groups h
    rw [plotDiffusionFit]
    rw [if_neg (by simpa [List.isEmpty_iff] using h)]

/-- C6 witness: the fit relation at two concrete surviving groups. -/
theorem c6_witness :
    arrheniusPoints [(500, [1]), (1000, [1])] ≠ [] ∧
    plotDiffusionFit [(500, [1]), (1000, [1])] =
      some (olsSlopeR ((arrheniusPoints [(500, [1]), (1000, [1])]).map
          (fun p => ((p.1 : ℝ), p.2))),
        olsInterceptR ((arrheniusPoints [(500, [1]), (1000, [1])]).map
          (fun p => ((p.1 : ℝ), p.2))),
        Real.exp (olsInterceptR ((arrheniusPoints [(500, [1]), (1000, [1])]).map
          (fun p => ((p.1 : ℝ), p.2))))) := by
  have hne : arrheniusPoints [(500, [1]), (1000, [1])] ≠ [] := by
    simp only [arrheniusPoints]
    rw [show positiveVals [(1 : ℚ)] = [1] from by decide]
    simp
  exact ⟨hne, c6_fit_on_inverse_temperature.2 [(500, [1]), (1000, [1])] hne⟩

end DiffRepo
